import Mathlib

/-!
Shallow embedding of the core of the raccoon-ecs runtime (entity-component
storage, sparse-set indexes, and the system dependency scheduler), translated
from the C++ headers, together with theorems settling the claims about the
natural-language specification.

Conventions used throughout the embedding:
* std::vector is modelled as List; operator[] reads are List.getD (the source
  only reads in bounds on the paths exercised by the theorems, where noted);
  writes are List.set (a no-op out of bounds, matching no defined behaviour).
* size_t is Nat; the sentinel std::numeric_limits<size_t>::max() is the
  constant InvalidIndex.  Nat subtraction is used where the source subtracts;
  the only subtractions (size() - 1) happen on lists shown non-empty.
* void* component pointers are Nat; a column slot is Option Nat with none for
  nullptr.
* unordered_map is an association list; iteration order of columns is the
  insertion order (the source leaves it unspecified).
* the error surface (RACCOON_ECS_ERROR / gErrorHandler) is an error counter;
  destroyed component instances are accumulated in a log, modelling the
  factory deleters (which skip null pointers).
-/

namespace RaccoonEcs

/-- Sentinel for invalid indices, std::numeric_limits<size_t>::max(). -/
def InvalidIndex : Nat := 18446744073709551615

/-- Swap two list elements, the effect of std::swap(v[i], v[j]); out-of-range
access (undefined behaviour in the source) leaves the list unchanged. -/
def listSwap {α : Type} (l : List α) (i j : Nat) : List α :=
  match l.get? i, l.get? j with
  | some a, some b => (l.set i b).set j a
  | _, _ => l

/-- Resize a list to length n filling new slots with d, std::vector::resize. -/
def resizeTo {α : Type} (l : List α) (n : Nat) (d : α) : List α :=
  if l.length ≤ n then l ++ List.replicate (n - l.length) d else l.take n

/-- pushBackUnique from async_systems_manager.h / system_dependencies.h. -/
def pushBackUnique {α : Type} [BEq α] (l : List α) (v : α) : List α :=
  if l.contains v then l else l ++ [v]

/-- Helper to apply a function at one position of a list (the source mutates
the element through a reference after an in-bounds index). -/
def updateAt {α : Type} (l : List α) (i : Nat) (f : α → α) : List α :=
  match l.get? i with
  | some a => l.set i (f a)
  | none => l

/-! ### Dependency graph (system_dependencies.h / async_systems_manager.h) -/

/-- DependencyGraph::Node. -/
structure Node where
  nodesBefore : List Nat := []
  nodesAfter : List Nat := []
  distanceToTheLast : Nat := InvalidIndex
  deriving Repr, DecidableEq

/-- DependencyGraph: nodes, the entry nodes, and the unordered set of
incompatible pairs (stored with the smaller index first). -/
structure DependencyGraph where
  mNodes : List Node := []
  mFirstNodes : List Nat := []
  mIncompatibilities : List (Nat × Nat) := []
  deriving Repr, DecidableEq

/-- DependencyGraph::initNodes. -/
def DependencyGraph.initNodes (g : DependencyGraph) (count : Nat) : DependencyGraph :=
  { g with mNodes := List.replicate count {} }

/-- DependencyGraph::addDependency. -/
def DependencyGraph.addDependency (g : DependencyGraph) (beforeIdx afterIdx : Nat) :
    DependencyGraph :=
  { g with
    mNodes :=
      updateAt
        (updateAt g.mNodes afterIdx fun n =>
          { n with nodesBefore := pushBackUnique n.nodesBefore beforeIdx })
        beforeIdx fun n =>
          { n with nodesAfter := pushBackUnique n.nodesAfter afterIdx } }

/-- DependencyGraph::addIncompatibility: insert the ordered pair into the set. -/
def DependencyGraph.addIncompatibility (g : DependencyGraph) (i j : Nat) : DependencyGraph :=
  let p := if i < j then (i, j) else (j, i)
  { g with
    mIncompatibilities :=
      if g.mIncompatibilities.contains p then g.mIncompatibilities
      else g.mIncompatibilities ++ [p] }

/-- DependencyGraph::areSystemsCompatible (the graph-level lookup). -/
def DependencyGraph.areSystemsCompatible (g : DependencyGraph) (i j : Nat) : Bool :=
  let p := if i < j then (i, j) else (j, i)
  !(g.mIncompatibilities.contains p)

/-- The worklist relaxation inside DependencyGraph::finalize.  The stack top is
the list head (the source pushes and pops at the back).  The source has no
fuel and loops forever on a cyclic graph; fuel is only consumed per pop and is
chosen large enough for the acyclic graphs evaluated below. -/
def relaxLoop (nodes : List Node) (stack : List Nat) : Nat → List Node
  | 0 => nodes
  | fuel + 1 =>
    match stack with
    | [] => nodes
    | cur :: rest =>
      let curNode := nodes.getD cur {}
      let acc := curNode.nodesBefore.foldl
        (fun (acc : List Node × List Nat) b =>
          (updateAt acc.1 b fun n =>
            { n with
              distanceToTheLast := min (curNode.distanceToTheLast + 1) n.distanceToTheLast },
           b :: acc.2))
        (nodes, rest)
      relaxLoop acc.1 acc.2 fuel

/-- DependencyGraph::finalize: for every sink node set distance 1 and relax its
(transitive) predecessors with min, then record nodes with no predecessors. -/
def DependencyGraph.finalize (g : DependencyGraph) : DependencyGraph :=
  let step := fun (acc : List Node × List Nat) (nodeIdx : Nat) =>
    let node := acc.1.getD nodeIdx {}
    let nodes1 :=
      if node.nodesAfter.isEmpty then
        relaxLoop
          (updateAt acc.1 nodeIdx fun n => { n with distanceToTheLast := 1 })
          [nodeIdx] 1000
      else acc.1
    let firsts1 :=
      if (nodes1.getD nodeIdx {}).nodesBefore.isEmpty then acc.2 ++ [nodeIdx] else acc.2
    (nodes1, firsts1)
  let res := (List.range g.mNodes.length).foldl step (g.mNodes, g.mFirstNodes)
  { g with mNodes := res.1, mFirstNodes := res.2 }

/-- Distance stored for a node after finalize. -/
def DependencyGraph.distOf (g : DependencyGraph) (v : Nat) : Nat :=
  (g.mNodes.getD v {}).distanceToTheLast

/-- Specification-side definition: number of nodes on a longest path from v to
a node with no outgoing edges (a sink counts 1), computed by fuel recursion. -/
def longestPathNodesToSink (g : DependencyGraph) : Nat → Nat → Nat
  | 0, _ => 0
  | fuel + 1, v =>
    let after := (g.mNodes.getD v {}).nodesAfter
    if after.isEmpty then 1
    else 1 + after.foldl (fun acc w => max acc (longestPathNodesToSink g fuel w)) 0

/-- Specification-side definition: number of edges on a longest path from v to
a sink. -/
def longestPathEdgesToSink (g : DependencyGraph) : Nat → Nat → Nat
  | 0, _ => 0
  | fuel + 1, v =>
    let after := (g.mNodes.getD v {}).nodesAfter
    if after.isEmpty then 0
    else 1 + after.foldl (fun acc w => max acc (longestPathEdgesToSink g fuel w)) 0

/-- Specification-side definition: number of nodes on a shortest path from v to
a sink (a sink counts 1). -/
def shortestPathNodesToSink (g : DependencyGraph) : Nat → Nat → Nat
  | 0, _ => InvalidIndex
  | fuel + 1, v =>
    let after := (g.mNodes.getD v {}).nodesAfter
    if after.isEmpty then 1
    else 1 + after.foldl (fun acc w => min acc (shortestPathNodesToSink g fuel w)) InvalidIndex

/-! ### System access declarations and the pairwise compatibility check
(async_systems_manager.h, AsyncSystemsManager) -/

/-- AsyncSystemsManager::SystemDependencyInnerData (the fields the conflict
check reads; component type ids are Nat). -/
structure SystemDependencyInnerData where
  componentsToRead : List Nat := []
  componentsToWrite : List Nat := []
  needsSynchronizationAfter : Bool := false
  exclusiveGlobalAccess : Bool := false
  deriving Repr, DecidableEq

/-- AsyncSystemsManager::areSystemsCompatible, translated literally: after the
exclusive-global early return, every check reads only the FIRST system's
declared sets (the loops compare firstSystemDependencies with itself). -/
def areSystemsCompatible (first second : SystemDependencyInnerData) : Bool :=
  if first.exclusiveGlobalAccess || second.exclusiveGlobalAccess then true
  else if first.componentsToWrite.any fun w =>
      first.componentsToRead.contains w || first.componentsToWrite.contains w then false
  else if first.componentsToRead.any fun r => first.componentsToWrite.contains r then false
  else true

/-- Specification-side definition of the conflict rule, for comparison: two
systems are incompatible iff neither is exclusive-global and the union of one
system's writes and reads intersects the other system's writes, in either
direction. -/
def specIncompatible (a b : SystemDependencyInnerData) : Bool :=
  !a.exclusiveGlobalAccess && !b.exclusiveGlobalAccess &&
    ((a.componentsToWrite ++ a.componentsToRead).any (b.componentsToWrite.contains ·) ||
     (b.componentsToWrite ++ b.componentsToRead).any (a.componentsToWrite.contains ·))

/-- The incompatibility pass of AsyncSystemsManager::buildDependencyGraph: for
every pair i < j the graph records an incompatibility when the check fails. -/
def buildIncompatibilities (deps : List SystemDependencyInnerData)
    (g : DependencyGraph) : DependencyGraph :=
  (List.range deps.length).foldl
    (fun acc i =>
      ((List.range deps.length).drop (i + 1)).foldl
        (fun acc2 j =>
          if areSystemsCompatible (deps.getD i {}) (deps.getD j {}) then acc2
          else acc2.addIncompatibility i j)
        acc)
    g

/-! ### Dependency tracer (both source copies) -/

/-- SystemDependencyTracer state over a graph. -/
structure SystemDependencyTracer where
  graph : DependencyGraph
  mResolvedDependencies : List Bool
  mActiveSystems : List Nat := []
  mNextSystems : List Nat
  deriving Repr, DecidableEq

/-- SystemDependencyTracer constructor. -/
def SystemDependencyTracer.init (g : DependencyGraph) : SystemDependencyTracer :=
  { graph := g
    mResolvedDependencies := List.replicate g.mNodes.length false
    mActiveSystems := []
    mNextSystems := g.mFirstNodes }

/-- SystemDependencyTracer::finishSystem. -/
def SystemDependencyTracer.finishSystem (tr : SystemDependencyTracer)
    (finishedSystem : Nat) : SystemDependencyTracer :=
  { tr with
    mActiveSystems := tr.mActiveSystems.filter (· ≠ finishedSystem)
    mResolvedDependencies := tr.mResolvedDependencies.set finishedSystem true
    mNextSystems :=
      ((tr.graph.mNodes.getD finishedSystem {}).nodesAfter).foldl
        pushBackUnique tr.mNextSystems }

/-- SystemDependencyTracer::runSystem. -/
def SystemDependencyTracer.runSystem (tr : SystemDependencyTracer)
    (systemIdx : Nat) : SystemDependencyTracer :=
  { tr with
    mNextSystems := tr.mNextSystems.filter (· ≠ systemIdx)
    mActiveSystems := tr.mActiveSystems ++ [systemIdx] }

/-- SystemDependencyTracer::canRunSystem: all predecessors resolved and
compatible with every active system. -/
def SystemDependencyTracer.canRunSystem (tr : SystemDependencyTracer)
    (systemIdx : Nat) : Bool :=
  ((tr.graph.mNodes.getD systemIdx {}).nodesBefore).all
      (fun b => tr.mResolvedDependencies.getD b false) &&
    tr.mActiveSystems.all (fun a => tr.graph.areSystemsCompatible systemIdx a)

namespace AsyncImpl

/-- filterIncompatibleSystems as written in async_systems_manager.h: collect
positions to exclude over all pairs, sort them descending and deduplicate,
swap each excluded position with the LAST position of the original-length
vector, then truncate. -/
def filterIncompatibleSystems (g : DependencyGraph) (systems : List Nat) : List Nat :=
  let n := systems.length
  let collected :=
    (List.range n).foldl
      (fun acc i =>
        ((List.range n).drop (i + 1)).foldl
          (fun acc2 j =>
            if g.areSystemsCompatible (systems.getD i 0) (systems.getD j 0) then acc2
            else if g.distOf (systems.getD i 0) < g.distOf (systems.getD j 0) then
              acc2 ++ [i]
            else acc2 ++ [j])
          acc)
      ([] : List Nat)
  let ex := ((List.range n).reverse).filter (fun k => collected.contains k)
  let swapped := ex.foldl (fun l idx => listSwap l idx (n - 1)) systems
  swapped.take (n - ex.length)

/-- SystemDependencyTracer::getNextSystemsToRun, async_systems_manager.h copy. -/
def getNextSystemsToRun (tr : SystemDependencyTracer) : List Nat :=
  let systemsToRun :=
    if tr.mNextSystems.isEmpty then []
    else tr.mNextSystems.filter tr.canRunSystem
  filterIncompatibleSystems tr.graph systemsToRun

end AsyncImpl

namespace DepsImpl

/-- One mutually-recursive step of filterIncompatibleSystems as written in
system_dependencies.h; outer = true models being about to test the outer loop
condition for index i, outer = false models the inner loop at (i, j).  On an
incompatible pair the element with the smaller distance is removed at once:
erase at i restarting the row, or swap j with the current back and shrink. -/
def filterStep (g : DependencyGraph) : Nat → Bool → List Nat → Nat → Nat → List Nat
  | 0, _, systems, _, _ => systems
  | fuel + 1, true, systems, i, _ =>
    if i + 1 < systems.length then filterStep g fuel false systems i (i + 1) else systems
  | fuel + 1, false, systems, i, j =>
    if j < systems.length then
      if g.areSystemsCompatible (systems.getD i 0) (systems.getD j 0) then
        filterStep g fuel false systems i (j + 1)
      else if g.distOf (systems.getD i 0) < g.distOf (systems.getD j 0) then
        filterStep g fuel true (systems.eraseIdx i) i 0
      else
        filterStep g fuel false
          ((listSwap systems j (systems.length - 1)).take (systems.length - 1)) i j
    else filterStep g fuel true systems (i + 1) 0

/-- filterIncompatibleSystems, system_dependencies.h copy. -/
def filterIncompatibleSystems (g : DependencyGraph) (systems : List Nat) : List Nat :=
  filterStep g 1000 true systems 0 0

/-- SystemDependencyTracer::getNextSystemsToRun, system_dependencies.h copy. -/
def getNextSystemsToRun (tr : SystemDependencyTracer) : List Nat :=
  let systemsToRun :=
    if tr.mNextSystems.isEmpty then []
    else tr.mNextSystems.filter tr.canRunSystem
  filterIncompatibleSystems tr.graph systemsToRun

end DepsImpl

/-- Check that a list of system indices contains no incompatible pair. -/
def pairwiseCompatible (g : DependencyGraph) (systems : List Nat) : Bool :=
  (List.range systems.length).all fun i =>
    ((List.range systems.length).drop (i + 1)).all fun j =>
      g.areSystemsCompatible (systems.getD i 0) (systems.getD j 0)

end RaccoonEcs

namespace RaccoonEcs

/-! ### Entities (entity.h) and the entity index map (entity_manager.h)

The snapshot's entity_manager.h identifies an entity by the single scalar
entity.getId() and keys mEntityIndexMap by it, while entity.h stores the pair
(mId, mVersion) with pairwise equality; getId reads the id field mId, the only
id-like field, so the manager never consults the version. -/

/-- Entity from entity.h: raw id and version. -/
structure Entity where
  mId : Nat
  mVersion : Nat
  deriving Repr, DecidableEq

/-- The id the entity manager keys its map by (entity.getId() in the source). -/
def Entity.getId (e : Entity) : Nat := e.mId

/-- Lookup in an unordered_map modelled as an association list (find). -/
def assocFind? : List (Nat × Nat) → Nat → Option Nat
  | [], _ => none
  | p :: rest, k => if p.1 = k then some p.2 else assocFind? rest k

/-- unordered_map::erase by key. -/
def assocErase (m : List (Nat × Nat)) (k : Nat) : List (Nat × Nat) :=
  m.filter (fun p => p.1 ≠ k)

/-- unordered_map::operator[] assignment (overwrite or append). -/
def assocInsert (m : List (Nat × Nat)) (k v : Nat) : List (Nat × Nat) :=
  if (assocFind? m k).isSome then m.map (fun p => if p.1 = k then (k, v) else p)
  else m ++ [(k, v)]

/-- unordered_map::emplace / try_emplace: insert only when the key is absent. -/
def assocEmplace (m : List (Nat × Nat)) (k v : Nat) : List (Nat × Nat) :=
  if (assocFind? m k).isSome then m else m ++ [(k, v)]

/-! ### Component columns (component_map.h) -/

/-- A per-type column: raw component pointers indexed by entity index, with
none for nullptr. -/
abbrev Column := List (Option Nat)

/-- Presence of a column for a type. -/
def hasColumn : List (Nat × Column) → Nat → Bool
  | [], _ => false
  | p :: rest, t => if p.1 = t then true else hasColumn rest t

/-- ComponentMapImpl::getComponentVectorById: an unknown type yields the shared
empty vector. -/
def lookupColumn : List (Nat × Column) → Nat → Column
  | [], _ => []
  | p :: rest, t => if p.1 = t then p.2 else lookupColumn rest t

/-- Store back a column that is known to exist (writes through the reference
returned by getOrCreateComponentVectorById). -/
def setColumn (cols : List (Nat × Column)) (t : Nat) (v : Column) :
    List (Nat × Column) :=
  cols.map fun p => if p.1 = t then (t, v) else p

/-- ComponentMapImpl::getOrCreateComponentVectorById: create an empty column on
first write access. -/
def ensureColumn (cols : List (Nat × Column)) (t : Nat) : List (Nat × Column) :=
  if hasColumn cols t then cols else cols ++ [(t, [])]

/-- The component pointer stored for entity index idx and type t; none when the
column is missing, too short, or holds nullptr. -/
def slotAt (cols : List (Nat × Column)) (idx t : Nat) : Option Nat :=
  (lookupColumn cols t).getD idx none

/-! ### Sparse-set indexes (component_indexes.h) -/

/-- ComponentIndexes::Index: signature, sparse array, dense entity array and
the cached component-pointer tuples (modelled as lists parallel to the
signature). -/
structure IndexState where
  mComponentTypes : List Nat
  mSparseArray : List Nat := []
  matchingEntityIndexes : List Nat := []
  cachedComponents : List (List Nat) := []
  mIsPopulated : Bool := false
  deriving Repr, DecidableEq

/-- Index::tryAddEntity: re-check the full signature against the columns and
append the entity with its cached pointers when satisfied. -/
def IndexState.tryAddEntity (I : IndexState) (entityIndex : Nat)
    (cols : List (Nat × Column)) : IndexState :=
  if I.mComponentTypes.all fun t =>
      decide (entityIndex < (lookupColumn cols t).length) &&
        (slotAt cols entityIndex t).isSome then
    let ps := I.mComponentTypes.map fun t => (slotAt cols entityIndex t).getD 0
    let sparse :=
      if I.mSparseArray.length ≤ entityIndex then
        I.mSparseArray ++
          List.replicate (entityIndex + 1 - I.mSparseArray.length) InvalidIndex
      else I.mSparseArray
    { I with
      mSparseArray := sparse.set entityIndex I.matchingEntityIndexes.length
      cachedComponents := I.cachedComponents ++ [ps]
      matchingEntityIndexes := I.matchingEntityIndexes ++ [entityIndex] }
  else I

/-- Index::tryRemoveEntity: swap-with-last removal from the sparse set. -/
def IndexState.tryRemoveEntity (I : IndexState) (entityIndex : Nat) : IndexState :=
  if entityIndex < I.mSparseArray.length then
    let idx := I.mSparseArray.getD entityIndex InvalidIndex
    if idx ≠ InvalidIndex then
      let n := I.matchingEntityIndexes.length
      let step :=
        if idx ≠ n - 1 then
          (I.mSparseArray.set (I.matchingEntityIndexes.getD (n - 1) InvalidIndex) idx,
           I.cachedComponents.set idx (I.cachedComponents.getD (n - 1) []),
           I.matchingEntityIndexes.set idx
             (I.matchingEntityIndexes.getD (n - 1) InvalidIndex))
        else (I.mSparseArray, I.cachedComponents, I.matchingEntityIndexes)
      { I with
        mSparseArray := step.1.set entityIndex InvalidIndex
        cachedComponents := step.2.1.dropLast
        matchingEntityIndexes := step.2.2.dropLast }
    else I
  else I

/-- Index::removeEntityWithSwap, translated literally; the source reads
matchingEntityIndexes.back() into lastEntitySparseIdx and then uses it both as
a position in the dense array (the swap) and as a position in the sparse
array. -/
def IndexState.removeEntityWithSwap (I : IndexState)
    (removedEntityIndex swappedEntityIndex : Nat) : IndexState :=
  if swappedEntityIndex < I.mSparseArray.length ∧
      I.mSparseArray.getD swappedEntityIndex InvalidIndex ≠ InvalidIndex then
    if removedEntityIndex < I.mSparseArray.length ∧
        I.mSparseArray.getD removedEntityIndex InvalidIndex ≠ InvalidIndex then
      let removedEntityDenseIdx := I.mSparseArray.getD removedEntityIndex InvalidIndex
      let swappedEntityDenseIdx := I.mSparseArray.getD swappedEntityIndex InvalidIndex
      let lastEntitySparseIdx :=
        I.matchingEntityIndexes.getD (I.matchingEntityIndexes.length - 1) InvalidIndex
      let dense1 :=
        (listSwap I.matchingEntityIndexes swappedEntityDenseIdx lastEntitySparseIdx).dropLast
      let sparse1 :=
        (I.mSparseArray.set lastEntitySparseIdx swappedEntityDenseIdx).set
          swappedEntityIndex InvalidIndex
      let cached1 :=
        (listSwap I.cachedComponents removedEntityDenseIdx
          (I.cachedComponents.length - 1)).dropLast
      let cached2 :=
        if cached1.length ≠ swappedEntityDenseIdx then
          listSwap cached1 swappedEntityDenseIdx removedEntityDenseIdx
        else cached1
      { I with
        matchingEntityIndexes := dense1
        mSparseArray := sparse1
        cachedComponents := cached2 }
    else
      { I with
        mSparseArray :=
          (I.mSparseArray.set swappedEntityIndex
            (I.mSparseArray.getD removedEntityIndex InvalidIndex)).set
            removedEntityIndex InvalidIndex }
  else I.tryRemoveEntity removedEntityIndex

/-- Index::populate: full scan of the columns up to the shortest column. -/
def IndexState.populate (I : IndexState) (cols : List (Nat × Column)) : IndexState :=
  let shortest :=
    I.mComponentTypes.foldl (fun m t => min m (lookupColumn cols t).length) InvalidIndex
  if shortest = InvalidIndex ∨ shortest = 0 then { I with mIsPopulated := true }
  else
    let start : List Nat × List Nat × List (List Nat) :=
      (resizeTo I.mSparseArray shortest InvalidIndex, [], [])
    let res := (List.range shortest).foldl
      (fun acc i =>
        if I.mComponentTypes.all fun t => (slotAt cols i t).isSome then
          let dense := acc.2.1 ++ [i]
          (acc.1.set i (dense.length - 1), dense,
           acc.2.2 ++ [I.mComponentTypes.map fun t => (slotAt cols i t).getD 0])
        else acc)
      start
    { I with
      mIsPopulated := true
      mSparseArray := res.1
      matchingEntityIndexes := res.2.1
      cachedComponents := res.2.2 }

/-- ComponentIndexes::onComponentAdded: notify every index whose signature
contains the type. -/
def onComponentAdded (t entityIndex : Nat) (cols : List (Nat × Column))
    (indexes : List IndexState) : List IndexState :=
  indexes.map fun I =>
    if I.mComponentTypes.contains t then I.tryAddEntity entityIndex cols else I

/-- ComponentIndexes::onComponentRemoved. -/
def onComponentRemoved (t entityIndex : Nat) (indexes : List IndexState) :
    List IndexState :=
  indexes.map fun I =>
    if I.mComponentTypes.contains t then I.tryRemoveEntity entityIndex else I

/-- ComponentIndexes::onEntityRemoved: every index is notified of the removal
and of the slot the last entity was moved into. -/
def onEntityRemoved (removedEntityIndex swappedEntityIndex : Nat)
    (indexes : List IndexState) : List IndexState :=
  indexes.map fun I => I.removeEntityWithSwap removedEntityIndex swappedEntityIndex

/-- Soundness of one index against the columns (the claim C2 invariant): every
valid sparse entry points at a dense slot holding the entity back-pointer, the
entity has a non-null component of every signature type, and the cached tuple
equals the column pointers. -/
def indexSoundB (cols : List (Nat × Column)) (I : IndexState) : Bool :=
  (List.range I.mSparseArray.length).all fun s =>
    let p := I.mSparseArray.getD s InvalidIndex
    p == InvalidIndex ||
      (decide (p < I.matchingEntityIndexes.length) &&
        I.matchingEntityIndexes.getD p InvalidIndex == s &&
        I.mComponentTypes.all (fun t => (slotAt cols s t).isSome) &&
        I.cachedComponents.getD p [] ==
          I.mComponentTypes.map fun t => (slotAt cols s t).getD 0)

/-! ### Entity manager (entity_manager.h) -/

/-- EntityManagerImpl state; errorCount models calls into the error surface and
destroyedLog the component instances handed to the factory deleters (which
skip null pointers). -/
structure EntityManager where
  mComponents : List (Nat × Column) := []
  mEntities : List Entity := []
  mEntityIndexMap : List (Nat × Nat) := []
  mIndexes : List IndexState := []
  mRegisteredTypes : List Nat := []
  destroyedLog : List Nat := []
  errorCount : Nat := 0
  deriving Repr, DecidableEq

/-- EntityManagerImpl::hasEntity: a bare lookup of the entity id in the map. -/
def EntityManager.hasEntity (m : EntityManager) (e : Entity) : Bool :=
  (assocFind? m.mEntityIndexMap e.getId).isSome

/-- EntityManagerImpl::addExistingEntityUnsafe (the entity generator holds no
manager-observable state and is not modelled). -/
def EntityManager.addExistingEntityUnsafe (m : EntityManager) (e : Entity) :
    EntityManager :=
  { m with
    mEntities := m.mEntities ++ [e]
    mEntityIndexMap := assocEmplace m.mEntityIndexMap e.getId m.mEntities.length }

/-- EntityManagerImpl::removeEntity: erase the map entry, swap the last entity
into the freed slot, compact every column with the same swap, destroy the
removed entity's components, and notify the indexes. -/
def EntityManager.removeEntity (m : EntityManager) (e : Entity) : EntityManager :=
  match assocFind? m.mEntityIndexMap e.getId with
  | none => { m with errorCount := m.errorCount + 1 }
  | some oldEntityIdx =>
    let entityIndexToRemove := m.mEntities.length - 1
    let map1 := assocErase m.mEntityIndexMap e.getId
    let relinked :=
      if oldEntityIdx ≠ entityIndexToRemove then
        let swappedEntity := m.mEntities.getD entityIndexToRemove ⟨0, 0⟩
        (listSwap m.mEntities oldEntityIdx entityIndexToRemove,
         assocInsert map1 swappedEntity.getId oldEntityIdx)
      else (m.mEntities, map1)
    let entities1 := relinked.1.dropLast
    let colres := m.mComponents.foldl
      (fun (acc : List (Nat × Column) × List Nat) tv =>
        if oldEntityIdx < tv.2.length then
          let step :=
            match tv.2.getD oldEntityIdx none with
            | some p => (tv.2.set oldEntityIdx none, acc.2 ++ [p])
            | none => (tv.2, acc.2)
          let vec2 :=
            if entityIndexToRemove < step.1.length ∧
                oldEntityIdx ≠ entityIndexToRemove then
              listSwap step.1 oldEntityIdx entityIndexToRemove
            else step.1
          (acc.1 ++ [(tv.1, vec2)], step.2)
        else (acc.1 ++ [tv], acc.2))
      ([], m.destroyedLog)
    { m with
      mEntities := entities1
      mEntityIndexMap := relinked.2
      mComponents := colres.1
      destroyedLog := colres.2
      mIndexes := onEntityRemoved oldEntityIdx entityIndexToRemove m.mIndexes }

/-- EntityManagerImpl::addComponentToEntity: grow the column, install the
pointer when the slot is free (report an error otherwise, leaking the new
pointer), then notify the indexes. -/
def EntityManager.addComponentToEntity (m : EntityManager) (entityIdx p t : Nat) :
    EntityManager :=
  let cols0 := ensureColumn m.mComponents t
  let vec := lookupColumn cols0 t
  let vec1 := if vec.length ≤ entityIdx then resizeTo vec (entityIdx + 1) none else vec
  let installed :=
    if (vec1.getD entityIdx none).isNone then (vec1.set entityIdx (some p), m.errorCount)
    else (vec1, m.errorCount + 1)
  let cols1 := setColumn cols0 t installed.1
  { m with
    mComponents := cols1
    errorCount := installed.2
    mIndexes := onComponentAdded t entityIdx cols1 m.mIndexes }

/-- EntityManagerImpl::addComponent: report an error (and leak the pointer)
for a non-existent entity, otherwise install. -/
def EntityManager.addComponent (m : EntityManager) (e : Entity) (p t : Nat) :
    EntityManager :=
  match assocFind? m.mEntityIndexMap e.getId with
  | none => { m with errorCount := m.errorCount + 1 }
  | some entityIdx => m.addComponentToEntity entityIdx p t

/-- EntityManagerImpl::removeComponent: destroy the slot through the factory
deleter (a no-op on nullptr for registered types), null it, and notify the
indexes; a missing entity only reports an error. -/
def EntityManager.removeComponent (m : EntityManager) (e : Entity) (t : Nat) :
    EntityManager :=
  match assocFind? m.mEntityIndexMap e.getId with
  | none => { m with errorCount := m.errorCount + 1 }
  | some entityIdx =>
    let vec := lookupColumn m.mComponents t
    let upd :=
      if entityIdx < vec.length then
        if m.mRegisteredTypes.contains t then
          match vec.getD entityIdx none with
          | some p =>
            (setColumn m.mComponents t (vec.set entityIdx none),
             m.destroyedLog ++ [p], m.errorCount)
          | none => (setColumn m.mComponents t (vec.set entityIdx none),
             m.destroyedLog, m.errorCount)
        else (m.mComponents, m.destroyedLog, m.errorCount + 1)
      else (m.mComponents, m.destroyedLog, m.errorCount)
    { m with
      mComponents := upd.1
      destroyedLog := upd.2.1
      errorCount := upd.2.2
      mIndexes := onComponentRemoved t entityIdx m.mIndexes }

/-- ComponentMapImpl::getComponentVectors: resolve the column of each type in
order; as in the source, once a type has no column, it and every following
type yield the shared empty vector. -/
def getComponentVectors (cols : List (Nat × Column)) : List Nat → List Column
  | [] => []
  | t :: rest =>
    if hasColumn cols t then lookupColumn cols t :: getComponentVectors cols rest
    else (t :: rest).map fun _ => []

/-- EntityManagerImpl::getEntityComponentSetInner: walk the resolved columns;
as in the source, the first missing component makes it and every following
slot null. -/
def getEntityComponentSetInner (entityIdx : Nat) : List Column → List (Option Nat)
  | [] => []
  | v :: rest =>
    if v.length ≤ entityIdx then (v :: rest).map fun _ => none
    else
      match v.getD entityIdx none with
      | none => (v :: rest).map fun _ => none
      | some p => some p :: getEntityComponentSetInner entityIdx rest

/-- EntityManagerImpl::getEntityComponents over a signature of type ids; a
missing entity yields getEmptyComponents, the all-null tuple. -/
def EntityManager.getEntityComponents (m : EntityManager) (e : Entity)
    (ts : List Nat) : List (Option Nat) :=
  match assocFind? m.mEntityIndexMap e.getId with
  | none => ts.map fun _ => none
  | some entityIdx => getEntityComponentSetInner entityIdx (getComponentVectors m.mComponents ts)

/-- ComponentIndexes::getOrCreateIndex via initializeIndex: create and populate
the index for the signature unless one already exists. -/
def EntityManager.initializeIndex (m : EntityManager) (sig : List Nat) : EntityManager :=
  if (m.mIndexes.find? fun I => I.mComponentTypes == sig).isSome then m
  else
    { m with
      mIndexes := m.mIndexes ++ [IndexState.populate { mComponentTypes := sig } m.mComponents] }

/-- The per-column update of transferEntityTo applied to the source column:
null the transferred entity's slot, then move the last entity's slot into the
freed space; a column too short to contain the entity is untouched. -/
def transferColumnUpdate (oldEntityIdx entityToRemoveIdx : Nat) (v : Column) :
    Column :=
  if oldEntityIdx < v.length then
    let v1 := v.set oldEntityIdx none
    if entityToRemoveIdx < v1.length ∧ oldEntityIdx ≠ entityToRemoveIdx then
      listSwap v1 oldEntityIdx entityToRemoveIdx
    else v1
  else v

/-- One iteration of the column loop of transferEntityTo: hand a non-null
source slot to the destination manager via addComponent (a column too short
to contain the entity reads as nullptr and is skipped, as in the source),
and record the compacted source column. -/
def transferStep (e : Entity) (oldEntityIdx entityToRemoveIdx : Nat)
    (acc : List (Nat × Column) × EntityManager) (tv : Nat × Column) :
    List (Nat × Column) × EntityManager :=
  let o2 :=
    match tv.2.getD oldEntityIdx none with
    | some p => acc.2.addComponent e p tv.1
    | none => acc.2
  (acc.1 ++ [(tv.1, transferColumnUpdate oldEntityIdx entityToRemoveIdx tv.2)], o2)

/-- EntityManagerImpl::transferEntityTo: register the entity in the other
manager, hand every non-null column slot's pointer to the other manager via
addComponent (no instance is copied or destroyed), null and compact the source
columns, unlink the entity and notify the source indexes.  The two managers
are distinct states; the source's self-transfer guard is therefore not
modelled. -/
def EntityManager.transferEntityTo (m other : EntityManager) (e : Entity) :
    EntityManager × EntityManager :=
  match assocFind? m.mEntityIndexMap e.getId with
  | none => ({ m with errorCount := m.errorCount + 1 }, other)
  | some oldEntityIdx =>
    let dup := (assocFind? other.mEntityIndexMap e.getId).isSome
    let other1 :=
      { other with
        mEntityIndexMap := assocEmplace other.mEntityIndexMap e.getId other.mEntities.length
        mEntities := other.mEntities ++ [e]
        errorCount := other.errorCount + (if dup then 1 else 0) }
    let entityToRemoveIdx := m.mEntities.length - 1
    let folded := m.mComponents.foldl
      (transferStep e oldEntityIdx entityToRemoveIdx) ([], other1)
    let map1 := assocErase m.mEntityIndexMap e.getId
    let relinked :=
      if oldEntityIdx ≠ entityToRemoveIdx then
        let entityToSwap := m.mEntities.getD entityToRemoveIdx ⟨0, 0⟩
        (assocInsert map1 entityToSwap.getId oldEntityIdx,
         listSwap m.mEntities entityToRemoveIdx oldEntityIdx)
      else (map1, m.mEntities)
    ({ m with
        mComponents := folded.1
        mEntityIndexMap := relinked.1
        mEntities := relinked.2.dropLast
        mIndexes := onEntityRemoved oldEntityIdx entityToRemoveIdx m.mIndexes },
     folded.2)

end RaccoonEcs

namespace RaccoonEcs

/-! ### Concrete instances used by the evaluation theorems -/

/-- A system declaring one written component type and nothing else. -/
def sysWritesA : SystemDependencyInnerData := { componentsToWrite := [0] }

/-- A system declaring no component access at all. -/
def sysNoAccess : SystemDependencyInnerData := {}

/-- A system declaring one read component type and nothing else. -/
def sysReadsA : SystemDependencyInnerData := { componentsToRead := [0] }

/-- Graph built from the writer system and the no-access system. -/
def c1GraphWN : DependencyGraph :=
  buildIncompatibilities [sysWritesA, sysNoAccess] (DependencyGraph.initNodes {} 2)

/-- Graph built from the reader system and the writer system. -/
def c1GraphRW : DependencyGraph :=
  buildIncompatibilities [sysReadsA, sysWritesA] (DependencyGraph.initNodes {} 2)

/-- Four systems 0 -> 1 -> 2 -> 3 with the shortcut 0 -> 3, finalized. -/
def c3Graph : DependencyGraph :=
  ((((DependencyGraph.initNodes {} 4).addDependency 0 1).addDependency
    1 2).addDependency 2 3).addDependency 0 3 |>.finalize

/-- The claim's own example: edges 0 -> 2 and 0 -> 1 -> 2, finalized. -/
def c3SmallGraph : DependencyGraph :=
  (((DependencyGraph.initNodes {} 3).addDependency 0 2).addDependency
    0 1).addDependency 1 2 |>.finalize

/-- Six systems, edges 2 -> 4 and 0 -> 5, declared incompatibilities (0,2) and
(1,2); nodes 0..3 have no predecessors; distances after finalize are
0 -> 2, 1 -> 1, 2 -> 2, 3 -> 1. -/
def c6Graph : DependencyGraph :=
  ((((DependencyGraph.initNodes {} 6).addDependency 2 4).addDependency
    0 5).addIncompatibility 0 2).addIncompatibility 1 2 |>.finalize

/-- Manager with three entities (ids 10, 11, 12), a populated index over type
7, and components added in the order entity 12, entity 10, entity 11, so the
dense array of the index is [2, 0, 1]. -/
def c2Before : EntityManager :=
  (((((({ mRegisteredTypes := [7] } : EntityManager).addExistingEntityUnsafe
    ⟨10, 0⟩).addExistingEntityUnsafe ⟨11, 0⟩).addExistingEntityUnsafe
    ⟨12, 0⟩).initializeIndex [7]).addComponent ⟨12, 0⟩ 102 7).addComponent
    ⟨10, 0⟩ 100 7 |>.addComponent ⟨11, 0⟩ 101 7

/-- A manager from which the only entity, id 5 version 0, has been removed. -/
def c4Removed : EntityManager :=
  (({} : EntityManager).addExistingEntityUnsafe ⟨5, 0⟩).removeEntity ⟨5, 0⟩

/-- Manager whose entity (id 9) already holds a component of type 3, the
instance with address 50. -/
def c7Holder : EntityManager :=
  (({ mRegisteredTypes := [3] } : EntityManager).addExistingEntityUnsafe
    ⟨9, 0⟩).addComponent ⟨9, 0⟩ 50 3

/-- Adding a second instance (address 60) of type 3 to the same entity. -/
def c7Result : EntityManager := c7Holder.addComponent ⟨9, 0⟩ 60 3

/-- A two-element sparse-set index used to instantiate the removal theorem:
entity 1 sits at dense position 0, entity 0 at dense position 1. -/
def c5Index : IndexState :=
  { mComponentTypes := [3]
    mSparseArray := [1, 0, InvalidIndex]
    matchingEntityIndexes := [1, 0]
    cachedComponents := [[11], [10]]
    mIsPopulated := true }

/-- Source manager for the transfer witness: entities 20 and 21, where entity
20 holds type 3 at address 200 and type 4 at address 201. -/
def c8Source : EntityManager :=
  (((({ mRegisteredTypes := [3, 4] } : EntityManager).addExistingEntityUnsafe
    ⟨20, 0⟩).addExistingEntityUnsafe ⟨21, 0⟩).addComponent ⟨20, 0⟩ 200 3
    |>.addComponent ⟨21, 0⟩ 210 3).addComponent ⟨20, 0⟩ 201 4

/-- Destination manager for the transfer witness, holding one unrelated
entity. -/
def c8Dest : EntityManager :=
  ({ mRegisteredTypes := [3, 4] } : EntityManager).addExistingEntityUnsafe ⟨30, 0⟩

/-- Manager for the removal witness: entity 9 holds type 3, entity 8 holds
nothing; type 4 is registered but entity 8 has no component of it; the index
over type 3 is populated. -/
def c9Manager : EntityManager :=
  { (c7Holder.initializeIndex [3]).addExistingEntityUnsafe ⟨8, 0⟩ with
    mRegisteredTypes := [3, 4] }

end RaccoonEcs

namespace RaccoonEcs

/-! ### Theorems settling the claims -/

/-- C1: the conflict rule is violated by the code.  AsyncSystemsManager's
areSystemsCompatible compares the first system's write set against the first
system's own read and write sets and never consults the second system's sets.
Consequently a writer is marked incompatible with a system that declares
nothing (the spec rule says they are compatible, their declared sets being
disjoint), and a reader paired with a writer of the same type is marked
compatible (the spec rule says they are incompatible). -/
theorem C1_conflict_rule_mismatch :
    areSystemsCompatible sysWritesA sysNoAccess = false ∧
    specIncompatible sysWritesA sysNoAccess = false ∧
    c1GraphWN.areSystemsCompatible 0 1 = false ∧
    areSystemsCompatible sysReadsA sysWritesA = true ∧
    specIncompatible sysReadsA sysWritesA = true ∧
    c1GraphRW.areSystemsCompatible 0 1 = true := by
  decide

/-- C2: index soundness is not preserved by entity removal.  In the manager
c2Before the index over type 7 is sound (dense order [2, 0, 1]); removing the
entity with id 10 (entity slot 0, swapped with slot 2) leaves the index with
sparse[0] = 1 while dense[1] = 2, so the invariant is broken. -/
theorem C2_entity_remove_breaks_index_soundness :
    c2Before.mIndexes.all (indexSoundB c2Before.mComponents) = true ∧
    (c2Before.removeEntity ⟨10, 0⟩).mIndexes.all
      (indexSoundB (c2Before.removeEntity ⟨10, 0⟩).mComponents) = false := by
  decide

/-- C3 counterexample: distance_to_sink is not the longest-path length.  In
the graph 0 -> 1 -> 2 -> 3 with the shortcut 0 -> 3, finalize assigns node 0
distance 2, while the longest path to the sink has 4 nodes (3 edges); in the
claim's own example graph (edges 0 -> 2 and 0 -> 1 -> 2) node 0 gets 2, not
the longest-path value 3. -/
theorem C3_distance_not_longest_path :
    c3Graph.distOf 0 = 2 ∧
    longestPathNodesToSink c3Graph 100 0 = 4 ∧
    longestPathEdgesToSink c3Graph 100 0 = 3 ∧
    c3Graph.distOf 0 ≠ longestPathNodesToSink c3Graph 100 0 ∧
    c3Graph.distOf 0 ≠ longestPathEdgesToSink c3Graph 100 0 ∧
    c3SmallGraph.distOf 0 = 2 ∧
    longestPathNodesToSink c3SmallGraph 100 0 = 3 ∧
    c3SmallGraph.distOf 0 ≠ longestPathNodesToSink c3SmallGraph 100 0 := by
  decide

/-- C3 amended: finalize relaxes with min, so every node's distance_to_sink
equals the number of nodes on a SHORTEST path from the node to a sink (a sink
counts 1); on the two example graphs the computed distances coincide with the
shortest-path values at every node. -/
theorem C3_distance_is_shortest_path :
    (List.range 4).map c3Graph.distOf =
      (List.range 4).map (shortestPathNodesToSink c3Graph 100) ∧
    (List.range 4).map c3Graph.distOf = [2, 3, 2, 1] ∧
    (List.range 3).map c3SmallGraph.distOf =
      (List.range 3).map (shortestPathNodesToSink c3SmallGraph 100) := by
  decide

/-- C4 counterexample: a removed entity value can be reported present again.
Entity (id 5, version 0) is added and removed, after which hasEntity is
false; adding the DIFFERENT entity value (id 5, version 1) makes
hasEntity (id 5, version 0) true again, because the manager keys its map by
the bare id and stores no per-entity version. -/
theorem C4_stale_entity_lookup_succeeds :
    c4Removed.hasEntity ⟨5, 0⟩ = false ∧
    (⟨5, 1⟩ : Entity) ≠ (⟨5, 0⟩ : Entity) ∧
    (c4Removed.addExistingEntityUnsafe ⟨5, 1⟩).hasEntity ⟨5, 0⟩ = true := by
  decide

/-- C6: the runnable-set computation of async_systems_manager.h can return two
mutually incompatible systems.  On c6Graph the candidates are [0, 1, 2, 3]
with excluded positions 2 and 1; the batched swap-with-back removal swaps
stale positions and returns [0, 2] although systems 0 and 2 are declared
incompatible.  The copy in system_dependencies.h removes elements immediately
and returns [0, 1, 3], which is pairwise compatible. -/
theorem C6_runnable_returns_incompatible_pair :
    AsyncImpl.getNextSystemsToRun (SystemDependencyTracer.init c6Graph) = [0, 2] ∧
    c6Graph.areSystemsCompatible 0 2 = false ∧
    DepsImpl.getNextSystemsToRun (SystemDependencyTracer.init c6Graph) = [0, 1, 3] ∧
    pairwiseCompatible c6Graph [0, 1, 3] = true := by
  decide

/-- C7 counterexample: adding a second instance of a held component type does
NOT install the new instance.  Entity 9 holds type 3 at address 50; adding
address 60 reports an error but the column still holds 50, the new pointer 60
is stored nowhere and nothing is destroyed, so the NEW instance is the one
leaked, not the previous one. -/
theorem C7_duplicate_add_keeps_old_pointer :
    slotAt c7Result.mComponents 0 3 = some 50 ∧
    slotAt c7Result.mComponents 0 3 ≠ some 60 ∧
    c7Result.errorCount = c7Holder.errorCount + 1 ∧
    c7Result.destroyedLog = [] := by
  decide

end RaccoonEcs

namespace RaccoonEcs

/-! ### Helper lemmas about the list and association-list primitives -/

theorem listGetD_set_ne {α : Type} :
    ∀ (l : List α) (i j : Nat) (a d : α), i ≠ j →
      (l.set i a).getD j d = l.getD j d
  | [], _, _, _, _, _ => rfl
  | _ :: _, 0, 0, _, _, h => absurd rfl h
  | _ :: _, 0, _ + 1, _, _, _ => rfl
  | _ :: _, _ + 1, 0, _, _, _ => rfl
  | _ :: xs, i + 1, j + 1, a, d, h =>
    listGetD_set_ne xs i j a d fun hh => h (by simp [hh])

theorem listGetD_set_self {α : Type} :
    ∀ (l : List α) (i : Nat) (a d : α), i < l.length →
      (l.set i a).getD i d = a
  | [], i, _, _, h => absurd h (by simp)
  | _ :: _, 0, _, _, _ => rfl
  | _ :: xs, i + 1, a, d, h =>
    listGetD_set_self xs i a d (Nat.lt_of_succ_lt_succ h)

theorem listSet_getD_self {α : Type} :
    ∀ (l : List α) (i : Nat) (d : α), i < l.length →
      l.set i (l.getD i d) = l
  | [], i, _, h => absurd h (by simp)
  | _ :: _, 0, _, _ => rfl
  | x :: xs, i + 1, d, h => by
    have := listSet_getD_self xs i d (Nat.lt_of_succ_lt_succ h)
    simp only [List.set, List.getD_cons_succ]
    rw [this]

theorem listGetD_dropLast {α : Type} :
    ∀ (l : List α) (i : Nat) (d : α), i < l.length - 1 →
      l.dropLast.getD i d = l.getD i d
  | [], _, _, h => absurd h (by simp)
  | [_], _, _, h => absurd h (by simp)
  | _ :: y :: ys, 0, _, _ => rfl
  | x :: y :: ys, i + 1, d, h => by
    have := listGetD_dropLast (y :: ys) i d (by simpa using Nat.lt_of_succ_lt_succ h)
    simpa using this

theorem listGetD_ge {α : Type} :
    ∀ (l : List α) (i : Nat) (d : α), l.length ≤ i → l.getD i d = d
  | [], _, _, _ => rfl
  | _ :: _, 0, _, h => absurd h (by simp)
  | _ :: xs, i + 1, d, h =>
    listGetD_ge xs i d (Nat.le_of_succ_le_succ h)

theorem assocFind_erase_self (m : List (Nat × Nat)) (k : Nat) :
    assocFind? (assocErase m k) k = none := by
  induction m with
  | nil => rfl
  | cons p rest ih =>
    by_cases h : p.1 = k
    · simpa [assocErase, h] using ih
    · simpa [assocErase, assocFind?, h] using ih

theorem assocFind_mapReplace_ne (k k' v : Nat) (h : k' ≠ k) :
    ∀ m : List (Nat × Nat),
      assocFind? (m.map fun p => if p.1 = k' then (k', v) else p) k = assocFind? m k
  | [] => rfl
  | p :: rest => by
    have ih := assocFind_mapReplace_ne k k' v h rest
    by_cases hp : p.1 = k'
    · have hpk : ¬ p.1 = k := by rw [hp]; exact h
      simpa [assocFind?, hp, hpk, h] using ih
    · by_cases hk : p.1 = k
      · simp [assocFind?, hp, hk, Ne.symm h]
      · simpa [assocFind?, hp, hk] using ih

theorem assocFind_append_ne (k k' v : Nat) (h : k' ≠ k) :
    ∀ m : List (Nat × Nat),
      assocFind? (m ++ [(k', v)]) k = assocFind? m k
  | [] => by simp [assocFind?, h]
  | p :: rest => by
    have ih := assocFind_append_ne k k' v h rest
    by_cases hk : p.1 = k
    · simp [assocFind?, hk]
    · simpa [assocFind?, hk] using ih

theorem assocFind_insert_ne (m : List (Nat × Nat)) (k k' v : Nat) (h : k' ≠ k) :
    assocFind? (assocInsert m k' v) k = assocFind? m k := by
  unfold assocInsert
  by_cases hmem : (assocFind? m k').isSome
  · simp only [hmem, if_true]
    exact assocFind_mapReplace_ne k k' v h m
  · simp only [hmem, if_false]
    exact assocFind_append_ne k k' v h m

theorem assocFind_append_absent (m : List (Nat × Nat)) (k v : Nat)
    (h : assocFind? m k = none) :
    assocFind? (m ++ [(k, v)]) k = some v := by
  induction m with
  | nil => simp [assocFind?]
  | cons p rest ih =>
    by_cases hk : p.1 = k
    · simp [assocFind?, hk] at h
    · simp [assocFind?, hk] at h ⊢
      exact ih h

theorem assocFind_emplace_self (m : List (Nat × Nat)) (k v : Nat)
    (h : assocFind? m k = none) :
    assocFind? (assocEmplace m k v) k = some v := by
  unfold assocEmplace
  rw [h]
  simpa using assocFind_append_absent m k v h

/-! ### Theorems C10 and C4 -/

/-- C10: getEntityComponents on an entity value that is not present returns
the all-null tuple (getEmptyComponents); the lookup mutates nothing and
reports no error, as the embedding of this path is a pure function of the
manager. -/
theorem C10_missing_entity_yields_all_null (m : EntityManager) (e : Entity)
    (ts : List Nat) (h : assocFind? m.mEntityIndexMap e.getId = none) :
    m.getEntityComponents e ts = ts.map fun _ => none := by
  unfold EntityManager.getEntityComponents
  rw [h]

/-- Witness for C10 at a concrete manager and entity. -/
theorem C10_missing_entity_yields_all_null_witness :
    c7Holder.getEntityComponents ⟨77, 0⟩ [3, 5] = [3, 5].map fun _ => none :=
  C10_missing_entity_yields_all_null c7Holder ⟨77, 0⟩ [3, 5] rfl

/-- C4 amended: hasEntity consults only the bare entity id (the map key), so
it is invariant under the version; and immediately after removeEntity(e) on a
manager where the last stored entity's id can coincide with e's id only when
e itself is last, hasEntity(e) is false.  The manager stores no version
vector and no alive flags, so the version-checked formulation of the claim
has no counterpart in the code. -/
theorem C4_hasEntity_is_id_lookup (m : EntityManager) (e : Entity) (oldIdx : Nat)
    (hfind : assocFind? m.mEntityIndexMap e.getId = some oldIdx)
    (hlast : (m.mEntities.getD (m.mEntities.length - 1) ⟨0, 0⟩).getId = e.getId →
      oldIdx = m.mEntities.length - 1) :
    (m.removeEntity e).hasEntity e = false ∧
    ∀ v v' : Nat, m.hasEntity ⟨e.mId, v⟩ = m.hasEntity ⟨e.mId, v'⟩ := by
  constructor
  · unfold EntityManager.removeEntity
    rw [hfind]
    unfold EntityManager.hasEntity
    simp only
    by_cases hsw : oldIdx = m.mEntities.length - 1
    · simp only [hsw, ne_eq, not_true_eq_false, if_false]
      rw [assocFind_erase_self]
      rfl
    · simp only [ne_eq, hsw, not_false_eq_true, if_true]
      have hne : (m.mEntities.getD (m.mEntities.length - 1) ⟨0, 0⟩).getId ≠ e.getId :=
        fun hh => hsw (hlast hh)
      rw [assocFind_insert_ne _ _ _ _ hne, assocFind_erase_self]
      rfl
  · intro v v'
    rfl

/-- Witness for C4 at a concrete manager: a two-entity manager from which the
first entity is removed. -/
theorem C4_hasEntity_is_id_lookup_witness :
    ((c9Manager.removeEntity ⟨9, 0⟩).hasEntity ⟨9, 0⟩ = false ∧
      ∀ v v' : Nat, c9Manager.hasEntity ⟨9, v⟩ = c9Manager.hasEntity ⟨9, v'⟩) :=
  C4_hasEntity_is_id_lookup c9Manager ⟨9, 0⟩ 0 rfl (by decide)

end RaccoonEcs

namespace RaccoonEcs

/-- C5: removing an entity slot s that an index holds at dense position p,
with last dense position q = n - 1, performs exactly the swap-with-last
update: dense[p] is overwritten with dense[q], cached[p] with cached[q],
sparse[dense[q]] becomes p, sparse[s] becomes InvalidIndex, and the last
dense and cached entries are popped; all other entities keep their sparse
entries and all other dense positions are unchanged. -/
theorem C5_tryRemoveEntity_swap_with_last (I : IndexState) (s p : Nat)
    (hs : s < I.mSparseArray.length)
    (hp : I.mSparseArray.getD s InvalidIndex = p)
    (hpv : p ≠ InvalidIndex)
    (hpn : p < I.matchingEntityIndexes.length)
    (hds : I.matchingEntityIndexes.getD p InvalidIndex = s)
    (hlen : I.cachedComponents.length = I.matchingEntityIndexes.length) :
    (I.tryRemoveEntity s).matchingEntityIndexes =
      (I.matchingEntityIndexes.set p
        (I.matchingEntityIndexes.getD (I.matchingEntityIndexes.length - 1)
          InvalidIndex)).dropLast ∧
    (I.tryRemoveEntity s).cachedComponents =
      (I.cachedComponents.set p
        (I.cachedComponents.getD (I.matchingEntityIndexes.length - 1) [])).dropLast ∧
    (I.tryRemoveEntity s).mSparseArray =
      (I.mSparseArray.set
        (I.matchingEntityIndexes.getD (I.matchingEntityIndexes.length - 1)
          InvalidIndex) p).set s InvalidIndex ∧
    (∀ e, e ≠ s →
      e ≠ I.matchingEntityIndexes.getD (I.matchingEntityIndexes.length - 1)
        InvalidIndex →
      (I.tryRemoveEntity s).mSparseArray.getD e InvalidIndex =
        I.mSparseArray.getD e InvalidIndex) ∧
    (∀ r, r < I.matchingEntityIndexes.length - 1 → r ≠ p →
      (I.tryRemoveEntity s).matchingEntityIndexes.getD r InvalidIndex =
        I.matchingEntityIndexes.getD r InvalidIndex ∧
      (I.tryRemoveEntity s).cachedComponents.getD r [] =
        I.cachedComponents.getD r []) := by
  have hmain :
      (I.tryRemoveEntity s).matchingEntityIndexes =
        (I.matchingEntityIndexes.set p
          (I.matchingEntityIndexes.getD (I.matchingEntityIndexes.length - 1)
            InvalidIndex)).dropLast ∧
      (I.tryRemoveEntity s).cachedComponents =
        (I.cachedComponents.set p
          (I.cachedComponents.getD (I.matchingEntityIndexes.length - 1) [])).dropLast ∧
      (I.tryRemoveEntity s).mSparseArray =
        (I.mSparseArray.set
          (I.matchingEntityIndexes.getD (I.matchingEntityIndexes.length - 1)
            InvalidIndex) p).set s InvalidIndex := by
    unfold IndexState.tryRemoveEntity
    simp only [if_pos hs, hp, if_pos hpv]
    by_cases hq : p = I.matchingEntityIndexes.length - 1
    · rw [if_neg (by simpa using hq)]
      refine ⟨?_, ?_, ?_⟩
      · show I.matchingEntityIndexes.dropLast = _
        rw [← hq, listSet_getD_self _ _ _ hpn]
      · show I.cachedComponents.dropLast = _
        rw [← hq, listSet_getD_self _ _ _ (by rw [hlen]; exact hpn)]
      · show I.mSparseArray.set s InvalidIndex = _
        rw [← hq, hds, List.set_set]
    · rw [if_pos (by simpa using hq)]
      exact ⟨rfl, rfl, rfl⟩
  obtain ⟨h1, h2, h3⟩ := hmain
  refine ⟨h1, h2, h3, ?_, ?_⟩
  · intro e he hL
    rw [h3, listGetD_set_ne _ _ _ _ _ (Ne.symm he),
      listGetD_set_ne _ _ _ _ _ (Ne.symm hL)]
  · intro r hr hrp
    constructor
    · rw [h1, listGetD_dropLast _ _ _ (by simpa using hr),
        listGetD_set_ne _ _ _ _ _ (Ne.symm hrp)]
    · rw [h2, listGetD_dropLast _ _ _ (by simp; omega),
        listGetD_set_ne _ _ _ _ _ (Ne.symm hrp)]

/-- Witness for C5: removing entity slot 1 (dense position 0) from the
concrete two-element index produces exactly the swapped-and-popped state. -/
theorem C5_tryRemoveEntity_swap_with_last_witness :
    (c5Index.tryRemoveEntity 1).matchingEntityIndexes = [0] ∧
    (c5Index.tryRemoveEntity 1).cachedComponents = [[10]] ∧
    (c5Index.tryRemoveEntity 1).mSparseArray = [0, InvalidIndex, InvalidIndex] := by
  have h := C5_tryRemoveEntity_swap_with_last c5Index 1 0 (by decide) (by decide)
    (by decide) (by decide) (by decide) (by decide)
  exact ⟨h.1.trans (by decide), h.2.1.trans (by decide), h.2.2.1.trans (by decide)⟩

end RaccoonEcs

namespace RaccoonEcs

/-! ### Column and index helper lemmas -/

theorem mapId_of_mem {α : Type} (f : α → α) :
    ∀ l : List α, (∀ x ∈ l, f x = x) → l.map f = l
  | [], _ => rfl
  | x :: xs, h => by
    rw [List.map_cons, h x (by simp), mapId_of_mem f xs fun y hy => h y (by simp [hy])]

theorem setColumn_absent (t : Nat) (v : Column) :
    ∀ cols : List (Nat × Column), (∀ p ∈ cols, p.1 ≠ t) → setColumn cols t v = cols
  | [], _ => rfl
  | c :: rest, h => by
    have hc : ¬ c.1 = t := h c (by simp)
    have ih := setColumn_absent t v rest fun p hp => h p (by simp [hp])
    simp only [setColumn, List.map_cons, if_neg hc] at ih ⊢
    rw [ih]

theorem lookupColumn_absent (t : Nat) :
    ∀ cols : List (Nat × Column), hasColumn cols t = false → lookupColumn cols t = []
  | [], _ => rfl
  | c :: rest, h => by
    by_cases hc : c.1 = t
    · simp [hasColumn, hc] at h
    · have : hasColumn rest t = false := by simpa [hasColumn, hc] using h
      simpa [lookupColumn, hc] using lookupColumn_absent t rest this

theorem setColumn_lookup_self (t : Nat) :
    ∀ cols : List (Nat × Column), (cols.map Prod.fst).Nodup →
      setColumn cols t (lookupColumn cols t) = cols
  | [], _ => rfl
  | c :: rest, h => by
    have hne := (List.nodup_cons.mp h).1
    have hrest := (List.nodup_cons.mp h).2
    by_cases hc : c.1 = t
    · have habs : ∀ p ∈ rest, p.1 ≠ t := fun p hp hpt =>
        hne (List.mem_map.mpr ⟨p, hp, by rw [hpt, hc]⟩)
      obtain ⟨a, b⟩ := c
      simp only at hc
      subst hc
      have hstep : setColumn ((a, b) :: rest) a (lookupColumn ((a, b) :: rest) a) =
          (a, b) :: setColumn rest a b := by
        simp [setColumn, lookupColumn]
      rw [hstep, setColumn_absent a b rest habs]
    · have ih := setColumn_lookup_self t rest hrest
      simp only [setColumn, List.map_cons, lookupColumn, if_neg hc] at ih ⊢
      rw [ih]

theorem slotAt_isSome_hasColumn (cols : List (Nat × Column)) (idx t : Nat)
    (h : (slotAt cols idx t).isSome = true) : hasColumn cols t = true := by
  by_contra hc
  have : lookupColumn cols t = [] :=
    lookupColumn_absent t cols (Bool.eq_false_iff.mpr hc)
  rw [slotAt, this] at h
  simp [List.getD] at h

theorem slotAt_isSome_lt (cols : List (Nat × Column)) (idx t : Nat)
    (h : (slotAt cols idx t).isSome = true) :
    idx < (lookupColumn cols t).length := by
  by_contra hlt
  rw [slotAt, listGetD_ge _ _ _ (Nat.le_of_not_lt hlt)] at h
  simp at h

/-- A sparse entry that the soundness invariant certifies points at an entity
holding every signature component cannot be valid for an entity that lacks one
of them. -/
theorem tryRemoveEntity_noop (I : IndexState) (cols : List (Nat × Column))
    (idx t : Nat) (hsound : indexSoundB cols I = true)
    (ht : t ∈ I.mComponentTypes) (hnot : slotAt cols idx t = none) :
    I.tryRemoveEntity idx = I := by
  unfold IndexState.tryRemoveEntity
  by_cases hlt : idx < I.mSparseArray.length
  · rw [if_pos hlt]
    by_cases hinv : I.mSparseArray.getD idx InvalidIndex = InvalidIndex
    · rw [hinv, if_neg (by simp)]
    · exfalso
      have hall := List.all_eq_true.mp hsound idx (List.mem_range.mpr hlt)
      simp only [Bool.or_eq_true, beq_iff_eq, Bool.and_eq_true] at hall
      rcases hall with hbad | hgood
      · exact hinv hbad
      · have hcomp := hgood.1.2
        have := List.all_eq_true.mp hcomp t ht
        rw [hnot] at this
        simp at this
  · rw [if_neg hlt]

theorem onComponentRemoved_noop (t idx : Nat) (cols : List (Nat × Column))
    (indexes : List IndexState)
    (hsound : ∀ I ∈ indexes, indexSoundB cols I = true)
    (hnot : slotAt cols idx t = none) :
    onComponentRemoved t idx indexes = indexes := by
  unfold onComponentRemoved
  apply mapId_of_mem
  intro I hI
  by_cases ht : I.mComponentTypes.contains t
  · rw [if_pos ht]
    exact tryRemoveEntity_noop I cols idx t (hsound I hI)
      (by simpa using ht) hnot
  · rw [if_neg ht]

/-! ### Theorems C9 and C7 -/

/-- C9: removing a component of a registered type from an entity that is
present but does not hold it is a complete no-op: no error is reported, no
instance is destroyed, the columns are untouched, and every sound index keeps
its sparse and dense contents (the removal notification does nothing for an
absent entity). -/
theorem C9_remove_absent_component_noop (m : EntityManager) (e : Entity)
    (t entityIdx : Nat)
    (hfind : assocFind? m.mEntityIndexMap e.getId = some entityIdx)
    (hreg : m.mRegisteredTypes.contains t = true)
    (hnot : slotAt m.mComponents entityIdx t = none)
    (hkeys : (m.mComponents.map Prod.fst).Nodup)
    (hsound : ∀ I ∈ m.mIndexes, indexSoundB m.mComponents I = true) :
    m.removeComponent e t = m := by
  unfold EntityManager.removeComponent
  rw [hfind]
  have hnot' : (lookupColumn m.mComponents t).getD entityIdx none = none := hnot
  have hidxfix : onComponentRemoved t entityIdx m.mIndexes = m.mIndexes :=
    onComponentRemoved_noop t entityIdx m.mComponents m.mIndexes hsound hnot
  by_cases hlt : entityIdx < (lookupColumn m.mComponents t).length
  · have hvecset : (lookupColumn m.mComponents t).set entityIdx none =
        lookupColumn m.mComponents t := by
      have := listSet_getD_self (lookupColumn m.mComponents t) entityIdx none hlt
      rwa [hnot'] at this
    simp only [if_pos hlt, if_pos hreg, hnot']
    rw [hvecset, setColumn_lookup_self t m.mComponents hkeys, hidxfix]
  · simp only [if_neg hlt]
    rw [hidxfix]

/-- Witness for C9: entity 8 is present and does not hold the registered type
4; removing type 4 from it leaves the concrete manager unchanged. -/
theorem C9_remove_absent_component_noop_witness :
    c9Manager.removeComponent ⟨8, 0⟩ 4 = c9Manager :=
  C9_remove_absent_component_noop c9Manager ⟨8, 0⟩ 4 1 (by decide) (by decide)
    (by decide) (by decide) (by decide)

/-- C7 amended: adding a component of a type the entity already holds reports
an error through the error surface, installs nothing (the previously stored
instance stays in the column, so the NEWLY supplied pointer is the one
leaked: it is neither stored nor destroyed), and still notifies the indexes
through onComponentAdded. -/
theorem C7_duplicate_add_reports_and_keeps_column (m : EntityManager)
    (e : Entity) (p2 t entityIdx : Nat)
    (hfind : assocFind? m.mEntityIndexMap e.getId = some entityIdx)
    (hheld : (slotAt m.mComponents entityIdx t).isSome = true)
    (hkeys : (m.mComponents.map Prod.fst).Nodup) :
    m.addComponent e p2 t =
      { m with
        errorCount := m.errorCount + 1
        mIndexes := onComponentAdded t entityIdx m.mComponents m.mIndexes } := by
  unfold EntityManager.addComponent
  rw [hfind]
  unfold EntityManager.addComponentToEntity
  have hens : ensureColumn m.mComponents t = m.mComponents := by
    unfold ensureColumn
    rw [if_pos (slotAt_isSome_hasColumn m.mComponents entityIdx t hheld)]
  have hlt := slotAt_isSome_lt m.mComponents entityIdx t hheld
  have hnone : ((lookupColumn m.mComponents t).getD entityIdx none).isNone = false := by
    have : (slotAt m.mComponents entityIdx t).isNone = false := by
      cases hopt : slotAt m.mComponents entityIdx t with
      | none => rw [hopt] at hheld; simp at hheld
      | some _ => rfl
    exact this
  simp only [hens, if_neg (Nat.not_le.mpr hlt), hnone, Bool.false_eq_true, if_false]
  rw [setColumn_lookup_self t m.mComponents hkeys]

/-- Witness for C7 at the concrete manager whose entity 9 holds type 3. -/
theorem C7_duplicate_add_reports_and_keeps_column_witness :
    c7Holder.addComponent ⟨9, 0⟩ 60 3 =
      { c7Holder with
        errorCount := c7Holder.errorCount + 1
        mIndexes := onComponentAdded 3 0 c7Holder.mComponents c7Holder.mIndexes } :=
  C7_duplicate_add_reports_and_keeps_column c7Holder ⟨9, 0⟩ 60 3 0 (by decide)
    (by decide) (by decide)

end RaccoonEcs

namespace RaccoonEcs

/-! ### Column algebra used by the transfer theorem -/

theorem hasColumn_false_of_not_mem (t : Nat) :
    ∀ cols : List (Nat × Column), t ∉ cols.map Prod.fst → hasColumn cols t = false
  | [], _ => rfl
  | c :: rest, h => by
    have hc : ¬ c.1 = t := fun hh => h (by simp [← hh])
    have : t ∉ rest.map Prod.fst := fun hh => h (by simp [hh])
    simpa [hasColumn, hc] using hasColumn_false_of_not_mem t rest this

theorem lookupColumn_nil_of_not_mem (t : Nat) (cols : List (Nat × Column))
    (h : t ∉ cols.map Prod.fst) : lookupColumn cols t = [] :=
  lookupColumn_absent t cols (hasColumn_false_of_not_mem t cols h)

theorem lookupColumn_cons_ne (c : Nat × Column) (rest : List (Nat × Column))
    (t : Nat) (h : ¬ c.1 = t) : lookupColumn (c :: rest) t = lookupColumn rest t := by
  simp [lookupColumn, h]

theorem lookupColumn_append_absent (t : Nat) :
    ∀ l1 l2 : List (Nat × Column), hasColumn l1 t = false →
      lookupColumn (l1 ++ l2) t = lookupColumn l2 t
  | [], _, _ => rfl
  | c :: rest, l2, h => by
    by_cases hc : c.1 = t
    · simp [hasColumn, hc] at h
    · have : hasColumn rest t = false := by simpa [hasColumn, hc] using h
      simpa [lookupColumn, hc] using lookupColumn_append_absent t rest l2 this

theorem hasColumn_ensure_self (cols : List (Nat × Column)) (t : Nat) :
    hasColumn (ensureColumn cols t) t = true := by
  unfold ensureColumn
  by_cases h : hasColumn cols t
  · rw [if_pos h]; exact h
  · rw [if_neg h]
    induction cols with
    | nil => simp [hasColumn]
    | cons c rest ih =>
      by_cases hc : c.1 = t
      · simp [hasColumn, hc]
      · have hr : ¬ hasColumn rest t = true := by
          intro hh
          exact h (by simpa [hasColumn, hc] using hh)
        simpa [hasColumn, hc] using ih hr

theorem lookupColumn_ensure_self (cols : List (Nat × Column)) (t : Nat) :
    lookupColumn (ensureColumn cols t) t = lookupColumn cols t := by
  unfold ensureColumn
  by_cases h : hasColumn cols t
  · rw [if_pos h]
  · rw [if_neg h, lookupColumn_append_absent t cols [(t, [])] (Bool.eq_false_iff.mpr h),
      lookupColumn_absent t cols (Bool.eq_false_iff.mpr h)]
    simp [lookupColumn]

theorem lookupColumn_append_singleton_ne (t t' : Nat) (v : Column) (h : t' ≠ t) :
    ∀ cols : List (Nat × Column),
      lookupColumn (cols ++ [(t, v)]) t' = lookupColumn cols t'
  | [] => by simp [lookupColumn, Ne.symm h]
  | c :: rest => by
    by_cases hct : c.1 = t'
    · simp [lookupColumn, hct]
    · simpa [lookupColumn, hct] using lookupColumn_append_singleton_ne t t' v h rest

theorem lookupColumn_ensure_ne (cols : List (Nat × Column)) (t t' : Nat)
    (h : t' ≠ t) : lookupColumn (ensureColumn cols t) t' = lookupColumn cols t' := by
  unfold ensureColumn
  by_cases hc : hasColumn cols t
  · rw [if_pos hc]
  · rw [if_neg hc]
    exact lookupColumn_append_singleton_ne t t' [] h cols


theorem lookupColumn_setColumn_self (t : Nat) (v : Column) :
    ∀ cols : List (Nat × Column), hasColumn cols t = true →
      lookupColumn (setColumn cols t v) t = v
  | [], h => by simp [hasColumn] at h
  | c :: rest, h => by
    by_cases hc : c.1 = t
    · simp [setColumn, lookupColumn, hc]
    · have hr : hasColumn rest t = true := by simpa [hasColumn, hc] using h
      simpa [setColumn, lookupColumn, hc] using
        lookupColumn_setColumn_self t v rest hr

theorem lookupColumn_setColumn_ne (t t' : Nat) (v : Column) (h : t' ≠ t) :
    ∀ cols : List (Nat × Column),
      lookupColumn (setColumn cols t v) t' = lookupColumn cols t'
  | [] => rfl
  | c :: rest => by
    by_cases hc : c.1 = t
    · have : ¬ c.1 = t' := by rw [hc]; exact Ne.symm h
      simpa [setColumn, lookupColumn, hc, this, Ne.symm h] using
        lookupColumn_setColumn_ne t t' v h rest
    · by_cases hct : c.1 = t'
      · simp [setColumn, lookupColumn, hc, hct, h]
      · simpa [setColumn, lookupColumn, hc, hct] using
          lookupColumn_setColumn_ne t t' v h rest

theorem listGetD_append_right {α : Type} :
    ∀ (l1 l2 : List α) (i : Nat) (d : α), l1.length ≤ i →
      (l1 ++ l2).getD i d = l2.getD (i - l1.length) d
  | [], _, _, _, _ => by simp
  | _ :: _, _, 0, _, h => by simp at h
  | x :: xs, l2, i + 1, d, h => by
    simpa using listGetD_append_right xs l2 i d (Nat.le_of_succ_le_succ h)

theorem listGetD_replicate_self {α : Type} (k i : Nat) (d : α) :
    (List.replicate k d).getD i d = d := by
  by_cases h : i < k
  · induction k generalizing i with
    | zero => simp at h
    | succ n ih =>
      cases i with
      | zero => rfl
      | succ j => simpa using ih j (Nat.lt_of_succ_lt_succ h)
  · rw [listGetD_ge _ _ _ (by simpa using Nat.le_of_not_lt h)]

/-- Effect of addComponent on a destination manager that contains the entity
at index newIdx and whose slot for the added type is free: the pointer is
installed unchanged, all other slots are untouched, and the entity map,
entity list and destruction log are preserved. -/
theorem addComponent_fresh_slot (o' : EntityManager) (e : Entity)
    (p t newIdx : Nat)
    (hm : assocFind? o'.mEntityIndexMap e.getId = some newIdx)
    (hslot : slotAt o'.mComponents newIdx t = none) :
    slotAt (o'.addComponent e p t).mComponents newIdx t = some p ∧
    (∀ t' k, t' ≠ t →
      slotAt (o'.addComponent e p t).mComponents k t' = slotAt o'.mComponents k t') ∧
    (o'.addComponent e p t).mEntityIndexMap = o'.mEntityIndexMap ∧
    (o'.addComponent e p t).mEntities = o'.mEntities ∧
    (o'.addComponent e p t).destroyedLog = o'.destroyedLog := by
  unfold EntityManager.addComponent
  rw [hm]
  unfold EntityManager.addComponentToEntity
  have hlook : lookupColumn (ensureColumn o'.mComponents t) t =
      lookupColumn o'.mComponents t := lookupColumn_ensure_self o'.mComponents t
  have hslot' : (lookupColumn (ensureColumn o'.mComponents t) t).getD newIdx none =
      none := by rw [hlook]; exact hslot
  by_cases hres : (lookupColumn (ensureColumn o'.mComponents t) t).length ≤ newIdx
  · have hgrow : resizeTo (lookupColumn (ensureColumn o'.mComponents t) t)
        (newIdx + 1) none =
        lookupColumn (ensureColumn o'.mComponents t) t ++
          List.replicate (newIdx + 1 -
            (lookupColumn (ensureColumn o'.mComponents t) t).length) none := by
      unfold resizeTo
      rw [if_pos (Nat.le_succ_of_le hres)]
    have hlen : (resizeTo (lookupColumn (ensureColumn o'.mComponents t) t)
        (newIdx + 1) none).length = newIdx + 1 := by
      rw [hgrow]
      simp
      omega
    have hmid : (resizeTo (lookupColumn (ensureColumn o'.mComponents t) t)
        (newIdx + 1) none).getD newIdx none = none := by
      rw [hgrow, listGetD_append_right _ _ _ _ hres, listGetD_replicate_self]
    simp only [if_pos hres, hmid, Option.isNone_none, if_true]
    refine ⟨?_, ?_, by trivial, by trivial, by trivial⟩
    · rw [slotAt, lookupColumn_setColumn_self t _ _ (hasColumn_ensure_self _ _),
        listGetD_set_self _ _ _ _ (by rw [hlen]; omega)]
    · intro t' k ht'
      rw [slotAt, lookupColumn_setColumn_ne t t' _ ht',
        lookupColumn_ensure_ne _ _ _ ht', slotAt]
  · have hlt : newIdx < (lookupColumn (ensureColumn o'.mComponents t) t).length :=
      Nat.lt_of_not_le hres
    simp only [if_neg hres, hslot', Option.isNone_none, if_true]
    refine ⟨?_, ?_, by trivial, by trivial, by trivial⟩
    · rw [slotAt, lookupColumn_setColumn_self t _ _ (hasColumn_ensure_self _ _),
        listGetD_set_self _ _ _ _ hlt]
    · intro t' k ht'
      rw [slotAt, lookupColumn_setColumn_ne t t' _ ht',
        lookupColumn_ensure_ne _ _ _ ht', slotAt]

end RaccoonEcs

namespace RaccoonEcs

/-- The column loop of transferEntityTo: the source columns are rewritten by
transferColumnUpdate in order, and the destination manager accumulates every
non-null source slot pointer at position newIdx while its entity map, entity
list and destruction log stay fixed. -/
theorem transfer_foldl_spec (e : Entity) (oldIdx lastIdx newIdx : Nat) :
    ∀ (cs : List (Nat × Column)) (acc : List (Nat × Column)) (o' : EntityManager),
      assocFind? o'.mEntityIndexMap e.getId = some newIdx →
      (cs.map Prod.fst).Nodup →
      (∀ tv ∈ cs, slotAt o'.mComponents newIdx tv.1 = none) →
      (cs.foldl (transferStep e oldIdx lastIdx) (acc, o')).1 =
          acc ++ cs.map (fun tv => (tv.1, transferColumnUpdate oldIdx lastIdx tv.2)) ∧
      (cs.foldl (transferStep e oldIdx lastIdx) (acc, o')).2.mEntityIndexMap =
          o'.mEntityIndexMap ∧
      (cs.foldl (transferStep e oldIdx lastIdx) (acc, o')).2.mEntities =
          o'.mEntities ∧
      (cs.foldl (transferStep e oldIdx lastIdx) (acc, o')).2.destroyedLog =
          o'.destroyedLog ∧
      (∀ t, slotAt (cs.foldl (transferStep e oldIdx lastIdx) (acc, o')).2.mComponents
            newIdx t =
          match slotAt cs oldIdx t with
          | some p => some p
          | none => slotAt o'.mComponents newIdx t)
  | [], acc, o', _, _, _ => by
    refine ⟨by simp, rfl, rfl, rfl, fun t => rfl⟩
  | tv :: cs', acc, o', hm, hnodup, hnone => by
    have hnodup' := (List.nodup_cons.mp hnodup).2
    have hmemd := (List.nodup_cons.mp hnodup).1
    rw [List.foldl_cons]
    cases hsl : tv.2.getD oldIdx none with
    | some p =>
      have hstep : transferStep e oldIdx lastIdx (acc, o') tv =
          (acc ++ [(tv.1, transferColumnUpdate oldIdx lastIdx tv.2)],
           o'.addComponent e p tv.1) := by
        simp only [transferStep, hsl]
      rw [hstep]
      obtain ⟨hA1, hA2, hAmap, hAent, hAdes⟩ :=
        addComponent_fresh_slot o' e p tv.1 newIdx hm (hnone tv (by simp))
      have hnone' : ∀ tv' ∈ cs',
          slotAt (o'.addComponent e p tv.1).mComponents newIdx tv'.1 = none := by
        intro tv' htv'
        have hne : tv'.1 ≠ tv.1 := fun hh =>
          hmemd (hh ▸ List.mem_map.mpr ⟨tv', htv', rfl⟩)
        rw [hA2 tv'.1 newIdx hne]
        exact hnone tv' (by simp [htv'])
      obtain ⟨IH1, IH2, IH3, IH4, IH5⟩ := transfer_foldl_spec e oldIdx lastIdx newIdx
        cs' (acc ++ [(tv.1, transferColumnUpdate oldIdx lastIdx tv.2)])
        (o'.addComponent e p tv.1) (by rw [hAmap]; exact hm) hnodup' hnone'
      refine ⟨by rw [IH1]; simp, by rw [IH2, hAmap], by rw [IH3, hAent],
        by rw [IH4, hAdes], ?_⟩
      intro t
      rw [IH5 t]
      by_cases ht : t = tv.1
      · rw [ht]
        have hcs' : slotAt cs' oldIdx tv.1 = none := by
          rw [slotAt, lookupColumn_nil_of_not_mem tv.1 cs' hmemd]
          rfl
        have hhead : slotAt (tv :: cs') oldIdx tv.1 = some p := by
          rw [slotAt]
          have hl : lookupColumn (tv :: cs') tv.1 = tv.2 := by simp [lookupColumn]
          rw [hl, hsl]
        rw [hcs', hhead]
        simpa using hA1
      · have hhead : slotAt (tv :: cs') oldIdx t = slotAt cs' oldIdx t := by
          rw [slotAt, slotAt, lookupColumn_cons_ne tv cs' t fun hh => ht hh.symm]
        rw [hhead]
        cases hq : slotAt cs' oldIdx t with
        | some q => rfl
        | none => simpa using hA2 t newIdx ht
    | none =>
      have hstep : transferStep e oldIdx lastIdx (acc, o') tv =
          (acc ++ [(tv.1, transferColumnUpdate oldIdx lastIdx tv.2)], o') := by
        simp only [transferStep, hsl]
      rw [hstep]
      obtain ⟨IH1, IH2, IH3, IH4, IH5⟩ := transfer_foldl_spec e oldIdx lastIdx newIdx
        cs' (acc ++ [(tv.1, transferColumnUpdate oldIdx lastIdx tv.2)]) o' hm hnodup'
        (fun tv' htv' => hnone tv' (by simp [htv']))
      refine ⟨by rw [IH1]; simp, IH2, IH3, IH4, ?_⟩
      intro t
      rw [IH5 t]
      by_cases ht : t = tv.1
      · rw [ht]
        have hcs' : slotAt cs' oldIdx tv.1 = none := by
          rw [slotAt, lookupColumn_nil_of_not_mem tv.1 cs' hmemd]
          rfl
        have hhead : slotAt (tv :: cs') oldIdx tv.1 = none := by
          rw [slotAt]
          have hl : lookupColumn (tv :: cs') tv.1 = tv.2 := by simp [lookupColumn]
          rw [hl, hsl]
        rw [hcs', hhead]
      · have hhead : slotAt (tv :: cs') oldIdx t = slotAt cs' oldIdx t := by
          rw [slotAt, slotAt, lookupColumn_cons_ne tv cs' t fun hh => ht hh.symm]
        rw [hhead]

/-! ### The query result as a function of the per-type slots -/

theorem length_getComponentVectors (cols : List (Nat × Column)) :
    ∀ ts : List Nat, (getComponentVectors cols ts).length = ts.length
  | [] => rfl
  | t :: rest => by
    simp only [getComponentVectors]
    by_cases h : hasColumn cols t
    · simp [h, length_getComponentVectors cols rest]
    · simp [h]

theorem mapNone_eq_of_length {α β : Type} :
    ∀ (l1 : List α) (l2 : List β), l1.length = l2.length →
      (l1.map fun _ => (none : Option Nat)) = l2.map fun _ => none
  | [], [], _ => rfl
  | [], _ :: _, h => by simp at h
  | _ :: _, [], h => by simp at h
  | _ :: as, _ :: bs, h => by
    simpa using mapNone_eq_of_length as bs (by simpa using h)

/-- The head-step normal form of the component-set gathering: the result is
the all-null tuple as soon as the head type's slot is absent (missing column,
short column, or null pointer), and otherwise conses the pointer. -/
theorem gather_cons (cols : List (Nat × Column)) (idx t : Nat) (rest : List Nat) :
    getEntityComponentSetInner idx (getComponentVectors cols (t :: rest)) =
      match slotAt cols idx t with
      | none => (t :: rest).map fun _ => none
      | some p => some p :: getEntityComponentSetInner idx (getComponentVectors cols rest) := by
  by_cases hc : hasColumn cols t
  · have hv : getComponentVectors cols (t :: rest) =
        lookupColumn cols t :: getComponentVectors cols rest := by
      simp only [getComponentVectors, if_pos hc]
    rw [hv]
    by_cases hlen : (lookupColumn cols t).length ≤ idx
    · have hslot : slotAt cols idx t = none := by
        rw [slotAt, listGetD_ge _ _ _ hlen]
      simp only [getEntityComponentSetInner]
      rw [if_pos hlen, hslot]
      exact mapNone_eq_of_length _ _ (by simp [length_getComponentVectors])
    · simp only [getEntityComponentSetInner]
      rw [if_neg hlen]
      cases hs : (lookupColumn cols t).getD idx none with
      | none =>
        rw [show slotAt cols idx t = none from hs]
        exact mapNone_eq_of_length _ _ (by simp [length_getComponentVectors])
      | some p =>
        rw [show slotAt cols idx t = some p from hs]
  · have hv : getComponentVectors cols (t :: rest) = (t :: rest).map fun _ => [] := by
      simp only [getComponentVectors, if_neg hc]
    have hslot : slotAt cols idx t = none := by
      rw [slotAt, lookupColumn_absent t cols (Bool.eq_false_iff.mpr hc)]
      rfl
    rw [hv, hslot]
    have hmap : (t :: rest).map (fun _ => ([] : Column)) =
        ([] : Column) :: rest.map (fun _ => []) := rfl
    rw [hmap]
    simp only [getEntityComponentSetInner]
    rw [if_pos (by simp)]
    exact mapNone_eq_of_length _ _ (by simp)

/-- Two column stores whose per-type slots agree at the queried entity indices
return identical component tuples for every signature. -/
theorem gather_eq (idx1 idx2 : Nat) (cols1 cols2 : List (Nat × Column)) :
    ∀ ts : List Nat, (∀ t ∈ ts, slotAt cols1 idx1 t = slotAt cols2 idx2 t) →
      getEntityComponentSetInner idx1 (getComponentVectors cols1 ts) =
      getEntityComponentSetInner idx2 (getComponentVectors cols2 ts)
  | [], _ => rfl
  | t :: rest, h => by
    rw [gather_cons cols1 idx1 t rest, gather_cons cols2 idx2 t rest, h t (by simp)]
    cases slotAt cols2 idx2 t with
    | none => rfl
    | some p =>
      rw [gather_eq idx1 idx2 cols1 cols2 rest fun t' ht' => h t' (by simp [ht'])]

end RaccoonEcs

namespace RaccoonEcs

/-- Reduction of transferEntityTo for a present source entity and an absent
destination id (no duplicate-id assertion fires). -/
theorem transferEntityTo_eq (m o : EntityManager) (e : Entity) (oldIdx : Nat)
    (hsrc : assocFind? m.mEntityIndexMap e.getId = some oldIdx)
    (hdst : assocFind? o.mEntityIndexMap e.getId = none) :
    m.transferEntityTo o e =
      (let other1 : EntityManager :=
        { o with
          mEntityIndexMap := assocEmplace o.mEntityIndexMap e.getId o.mEntities.length
          mEntities := o.mEntities ++ [e] }
       let folded := m.mComponents.foldl
        (transferStep e oldIdx (m.mEntities.length - 1)) ([], other1)
       let map1 := assocErase m.mEntityIndexMap e.getId
       let relinked :=
        if oldIdx ≠ m.mEntities.length - 1 then
          (assocInsert map1
            (m.mEntities.getD (m.mEntities.length - 1) ⟨0, 0⟩).getId oldIdx,
           listSwap m.mEntities (m.mEntities.length - 1) oldIdx)
        else (map1, m.mEntities)
       ({ m with
           mComponents := folded.1
           mEntityIndexMap := relinked.1
           mEntities := relinked.2.dropLast
           mIndexes := onEntityRemoved oldIdx (m.mEntities.length - 1) m.mIndexes },
        folded.2)) := by
  unfold EntityManager.transferEntityTo
  rw [hsrc]
  simp [hdst]

/-- The compacted source column reads as null at the transferred entity's slot
when that entity occupied the last position (no swap takes place). -/
theorem transferColumnUpdate_last_getD (i : Nat) (v : Column) :
    (transferColumnUpdate i i v).getD i none = none := by
  unfold transferColumnUpdate
  by_cases hl : i < v.length
  · rw [if_pos hl, if_neg (by simp)]
    exact listGetD_set_self v i none none hl
  · rw [if_neg hl]
    exact listGetD_ge _ _ _ (Nat.le_of_not_lt hl)

theorem lookupColumn_map_snd (g : Column → Column) (t : Nat) :
    ∀ cols : List (Nat × Column),
      lookupColumn (cols.map fun tv => (tv.1, g tv.2)) t =
        if hasColumn cols t then g (lookupColumn cols t) else []
  | [] => rfl
  | c :: rest => by
    by_cases hc : c.1 = t
    · simp [lookupColumn, hasColumn, hc]
    · simpa [lookupColumn, hasColumn, hc] using lookupColumn_map_snd g t rest

/-- C8: transferring an entity moves every component pointer unchanged.  With
the entity present in the source at oldIdx, its id absent from the
destination, a well-formed destination (no stale pointers at or beyond its
entity count) and uniquely-keyed source columns: every per-type destination
slot of the transferred entity equals the source slot, every query on the
destination returns exactly the tuples the source returned before the
transfer, neither manager destroys an instance, the destination maps the
entity id, and when the entity occupied the last source slot, its source
column entries are nulled. -/
theorem C8_transfer_preserves_addresses (m o : EntityManager) (e : Entity)
    (oldIdx : Nat)
    (hsrc : assocFind? m.mEntityIndexMap e.getId = some oldIdx)
    (hdst : assocFind? o.mEntityIndexMap e.getId = none)
    (hwf : ∀ t k, o.mEntities.length ≤ k → slotAt o.mComponents k t = none)
    (hkeys : (m.mComponents.map Prod.fst).Nodup) :
    (∀ t, slotAt (m.transferEntityTo o e).2.mComponents o.mEntities.length t =
        slotAt m.mComponents oldIdx t) ∧
    (∀ ts, (m.transferEntityTo o e).2.getEntityComponents e ts =
        m.getEntityComponents e ts) ∧
    (m.transferEntityTo o e).1.destroyedLog = m.destroyedLog ∧
    (m.transferEntityTo o e).2.destroyedLog = o.destroyedLog ∧
    assocFind? (m.transferEntityTo o e).2.mEntityIndexMap e.getId =
        some o.mEntities.length ∧
    (oldIdx = m.mEntities.length - 1 →
      ∀ t, slotAt (m.transferEntityTo o e).1.mComponents oldIdx t = none) := by
  rw [transferEntityTo_eq m o e oldIdx hsrc hdst]
  have hm1 : assocFind?
      (assocEmplace o.mEntityIndexMap e.getId o.mEntities.length) e.getId =
      some o.mEntities.length := assocFind_emplace_self _ _ _ hdst
  obtain ⟨F1, F2, F3, F4, F5⟩ := transfer_foldl_spec e oldIdx
    (m.mEntities.length - 1) o.mEntities.length m.mComponents []
    { o with
      mEntityIndexMap := assocEmplace o.mEntityIndexMap e.getId o.mEntities.length
      mEntities := o.mEntities ++ [e] }
    hm1 hkeys (fun tv _ => hwf tv.1 o.mEntities.length (Nat.le_refl _))
  have hslots : ∀ t,
      slotAt (List.foldl (transferStep e oldIdx (m.mEntities.length - 1))
        ([], { o with
          mEntityIndexMap := assocEmplace o.mEntityIndexMap e.getId o.mEntities.length
          mEntities := o.mEntities ++ [e] }) m.mComponents).2.mComponents
        o.mEntities.length t =
      slotAt m.mComponents oldIdx t := by
    intro t
    rw [F5 t]
    cases hq : slotAt m.mComponents oldIdx t with
    | some p => rfl
    | none =>
      show slotAt o.mComponents o.mEntities.length t = none
      exact hwf t o.mEntities.length (Nat.le_refl _)
  refine ⟨hslots, ?_, rfl, F4, ?_, ?_⟩
  · intro ts
    unfold EntityManager.getEntityComponents
    rw [hsrc]
    show (match assocFind? (List.foldl (transferStep e oldIdx
        (m.mEntities.length - 1)) ([], { o with
          mEntityIndexMap := assocEmplace o.mEntityIndexMap e.getId o.mEntities.length
          mEntities := o.mEntities ++ [e] }) m.mComponents).2.mEntityIndexMap
        e.getId with
      | none => ts.map fun _ => none
      | some entityIdx => getEntityComponentSetInner entityIdx
          (getComponentVectors (List.foldl (transferStep e oldIdx
            (m.mEntities.length - 1)) ([], { o with
              mEntityIndexMap := assocEmplace o.mEntityIndexMap e.getId
                o.mEntities.length
              mEntities := o.mEntities ++ [e] }) m.mComponents).2.mComponents ts))
      = getEntityComponentSetInner oldIdx (getComponentVectors m.mComponents ts)
    rw [F2, hm1]
    exact gather_eq o.mEntities.length oldIdx _ m.mComponents ts
      fun t _ => hslots t
  · show assocFind? (List.foldl (transferStep e oldIdx (m.mEntities.length - 1))
        ([], { o with
          mEntityIndexMap := assocEmplace o.mEntityIndexMap e.getId o.mEntities.length
          mEntities := o.mEntities ++ [e] }) m.mComponents).2.mEntityIndexMap
        e.getId = some o.mEntities.length
    rw [F2]
    exact hm1
  · intro hlast t
    show slotAt (List.foldl (transferStep e oldIdx (m.mEntities.length - 1))
        ([], { o with
          mEntityIndexMap := assocEmplace o.mEntityIndexMap e.getId o.mEntities.length
          mEntities := o.mEntities ++ [e] }) m.mComponents).1 oldIdx t = none
    rw [F1]
    rw [slotAt, List.nil_append,
      lookupColumn_map_snd (transferColumnUpdate oldIdx (m.mEntities.length - 1)) t
        m.mComponents]
    by_cases hc : hasColumn m.mComponents t
    · rw [if_pos hc, ← hlast]
      exact transferColumnUpdate_last_getD oldIdx (lookupColumn m.mComponents t)
    · rw [if_neg hc]
      rfl

end RaccoonEcs

namespace RaccoonEcs

/-- Witness for C8: transferring entity 20 (holding addresses 200 and 201)
from the concrete source manager to the concrete destination manager
preserves every observed address and destroys nothing. -/
theorem C8_transfer_preserves_addresses_witness :
    (c8Source.transferEntityTo c8Dest ⟨20, 0⟩).2.getEntityComponents ⟨20, 0⟩ [3, 4] =
      c8Source.getEntityComponents ⟨20, 0⟩ [3, 4] ∧
    slotAt (c8Source.transferEntityTo c8Dest ⟨20, 0⟩).2.mComponents 1 3 =
      slotAt c8Source.mComponents 0 3 ∧
    (c8Source.transferEntityTo c8Dest ⟨20, 0⟩).1.destroyedLog = [] ∧
    (c8Source.transferEntityTo c8Dest ⟨20, 0⟩).2.destroyedLog = [] := by
  have h := C8_transfer_preserves_addresses c8Source c8Dest ⟨20, 0⟩ 0 (by decide)
    (by decide) (fun t k _ => rfl) (by decide)
  exact ⟨h.2.1 [3, 4], h.1 3, h.2.2.1.trans (by decide),
    h.2.2.2.1.trans (by decide)⟩

end RaccoonEcs
